import Mathlib

set_option maxHeartbeats 1000000

/-!
Shallow embedding of `src/hosts/hosts.py` (python-hosts): the `HostsEntry`
entry model and the `Hosts` collection operations (classification, parsing,
count, add, remove, serialization, load).

Modelling conventions:
* Python `None` becomes `Option.none`; Python truthiness of the optional
  string/list fields is made explicit (`truthyStr`, `truthyNames`).
* A Python exception becomes `Except.error` (constructor paths) or `none`
  (an `IndexError` inside `get_entry_type`, which returns
  `Option (Option String)`: `none` = exception, `some none` = the literal
  `False` the source returns for an unclassifiable first token).
* File I/O is split off: `populate_entries` takes the list of raw lines the
  file iteration would yield, and `Hosts.write` returns the string the
  source writes to the file (sequential writes become concatenation).
* `list.remove` in the source removes the first list element `==` its
  argument, and `HostsEntry` defines no `__eq__`, so equality is object
  identity: each entry is tagged with its position (`List.enum`) to model
  identity. Removing the same tag twice, which happens when one existing
  entry matches both removal branches, raises `ValueError`
  (`HostsError.valueError`); the state returned alongside the outcome keeps
  the removals made before the raise, as the mutated Python object does.
* The validators `is_ipv4`, `is_ipv6`, `valid_hostnames` live in the
  repository's `utils` module, which is not part of the given sources; they
  are modelled from the spec (section 6) as syntactic validators.
-/

/-- Python whitespace as used by str.split() and str.strip() with no
arguments. -/
def isPyWhitespace (c : Char) : Bool :=
  c == ' ' || c == '\t' || c == '\n' || c == '\r' || c == '\x0b' || c == '\x0c'

/-- Helper for `pySplit`: walks the characters, accumulating the current
token reversed. -/
def pySplitAux : List Char → List Char → List String
  | [], cur => if cur.isEmpty then [] else [String.mk cur.reverse]
  | c :: cs, cur =>
    if isPyWhitespace c then
      if cur.isEmpty then pySplitAux cs []
      else String.mk cur.reverse :: pySplitAux cs []
    else pySplitAux cs (c :: cur)

/-- Python str.split() with no arguments: split on runs of whitespace,
discarding empty tokens. -/
def pySplit (s : String) : List String :=
  pySplitAux s.data []

/-- Python str.strip() with no arguments: drop leading and trailing
whitespace. -/
def pyStrip (s : String) : String :=
  String.mk (((s.data.dropWhile isPyWhitespace).reverse.dropWhile isPyWhitespace).reverse)

/-- Python truthiness of an optional string (None and the empty string are
falsy). -/
def truthyStr (o : Option String) : Bool :=
  match o with
  | none => false
  | some s => if s = "" then false else true

/-- Python truthiness of an optional name list (None and the empty list are
falsy). -/
def truthyNames (o : Option (List String)) : Bool :=
  match o with
  | none => false
  | some l => if l = [] then false else true

/-- Splits a character list at a separator character (helper for the
modelled address validators). -/
def splitOnChar (sep : Char) : List Char → List Char → List (List Char)
  | [], cur => [cur.reverse]
  | c :: cs, cur =>
    if c == sep then cur.reverse :: splitOnChar sep cs []
    else splitOnChar sep cs (c :: cur)

/-- Decimal value of a digit list (helper for the modelled `is_ipv4`). -/
def decDigits (cs : List Char) : Nat :=
  cs.foldl (fun n c => n * 10 + (c.toNat - 48)) 0

/-- Modelled from the spec: the source imports `is_ipv4` from the
repository's `utils` module, which is not among the given sources; the spec
describes it as a syntactic IPv4 address validator. Modelled as dotted-quad
syntax: four dot-separated decimal components, each 1 to 3 digits with
value at most 255. -/
def is_ipv4 (s : String) : Bool :=
  let parts := splitOnChar '.' s.data []
  parts.length == 4 && parts.all fun p =>
    decide (1 ≤ p.length) && decide (p.length ≤ 3) &&
    p.all Char.isDigit && decide (decDigits p ≤ 255)

/-- Hexadecimal digit (helper for the modelled `is_ipv6`). -/
def isHexChar (c : Char) : Bool :=
  c.isDigit || (decide ('a' ≤ c) && decide (c ≤ 'f')) ||
    (decide ('A' ≤ c) && decide (c ≤ 'F'))

/-- Modelled from the spec: the source imports `is_ipv6` from the
repository's `utils` module, which is not among the given sources; the spec
describes it as a syntactic IPv6 address validator. Modelled as colon-
separated groups of at most four hex digits, at most eight groups, with at
least one colon present. -/
def is_ipv6 (s : String) : Bool :=
  let groups := splitOnChar ':' s.data []
  s.data.any (· == ':') && decide (groups.length ≤ 8) &&
    groups.all fun g => decide (g.length ≤ 4) && g.all isHexChar

/-- Modelled from the spec: the source imports `valid_hostnames` from the
repository's `utils` module, which is not among the given sources; the spec
describes it as a syntactic hostname validator over a sequence (all must be
valid). Modelled as nonempty strings of at most 255 alphanumeric, dash or
dot characters; an empty sequence is vacuously valid. -/
def valid_hostnames (hostnames : List String) : Bool :=
  hostnames.all fun h =>
    decide (1 ≤ h.data.length) && decide (h.data.length ≤ 255) &&
    h.data.all fun c => c.isAlphanum || c == '-' || c == '.'

/-- The exceptions the source can raise: plain `Exception(msg)`,
`exception.InvalidIPv4Address`, `exception.InvalidIPv6Address`, the
`IndexError` of indexing an empty string or list, and the `ValueError` of
`list.remove` on a missing element. -/
inductive HostsError where
  | genericError (msg : String)
  | invalidIPv4Address
  | invalidIPv6Address
  | indexError
  | valueError
deriving DecidableEq

/-- One entry of a hosts file, as the source's `HostsEntry` stores it: the
`entry_type` discriminant string plus the three optional payload fields. -/
structure HostsEntry where
  entry_type : String
  address : Option String
  comment : Option String
  names : Option (List String)
deriving DecidableEq

/-- `HostsEntry.__init__`: validates the discriminant and the payload and
either raises (modelled as `Except.error`) or stores all four fields. -/
def HostsEntry.init (entry_type address comment : Option String)
    (names : Option (List String)) : Except HostsError HostsEntry :=
  if !truthyStr entry_type ||
      !(entry_type == some "ipv4" || entry_type == some "ipv6" ||
        entry_type == some "comment" || entry_type == some "blank") then
    .error (.genericError "entry_type invalid or not specified")
  else if entry_type == some "comment" && !truthyStr comment then
    .error (.genericError "entry_type comment supplied without value.")
  else if entry_type == some "ipv4" && !(truthyStr address && truthyNames names) then
    .error (.genericError "Address and Name(s) must be specified.")
  else if entry_type == some "ipv4" && !is_ipv4 (address.getD "") then
    .error .invalidIPv4Address
  else if entry_type == some "ipv6" && !(truthyStr address && truthyNames names) then
    .error (.genericError "Address and Name(s) must be specified.")
  else if entry_type == some "ipv6" && !is_ipv6 (address.getD "") then
    .error .invalidIPv6Address
  else
    .ok { entry_type := entry_type.getD "", address := address,
          comment := comment, names := names }

/-- `HostsEntry.get_entry_type`: classifies one raw line. `none` models the
`IndexError` of `hosts_entry[0]` on an empty string or of `entry_chunks[0]`
on a whitespace-only line; `some none` models the `False` returned for an
unclassifiable first token. -/
def HostsEntry.get_entry_type (hosts_entry : String) : Option (Option String) :=
  match hosts_entry.data with
  | [] => none
  | c :: _ =>
    if c == '#' then some (some "comment")
    else if c == '\n' then some (some "blank")
    else
      match pySplit hosts_entry with
      | [] => none
      | t :: _ =>
        if is_ipv4 t then some (some "ipv4")
        else if is_ipv6 t then some (some "ipv6")
        else some none

/-- `HostsEntry.str_to_hostentry`: parses one raw string into an entry.
`Except.error` models a raised exception (the `IndexError` of
`line_parts[0]` on an empty or whitespace-only string, or a constructor
exception); `Except.ok none` models the `False` returned for invalid
hostnames or an unrecognized first token. The tokens `pySplit` yields are
never empty, so `line_parts[0][0]` is modelled total via `head?`. -/
def HostsEntry.str_to_hostentry (entry : String) :
    Except HostsError (Option HostsEntry) :=
  match pySplit (pyStrip entry) with
  | [] => .error .indexError
  | t :: rest =>
    if t.data.head?.getD ' ' == '#' then
      (HostsEntry.init (some "comment") none (some t) none).map some
    else if is_ipv4 t then
      if valid_hostnames rest then
        (HostsEntry.init (some "ipv4") (some t) none (some rest)).map some
      else .ok none
    else if is_ipv6 t then
      if valid_hostnames rest then
        (HostsEntry.init (some "ipv6") (some t) none (some rest)).map some
      else .ok none
    else .ok none

/-- The result dict of `Hosts.count`. -/
structure CountResult where
  address_matches : Nat
  name_matches : Nat
  comment_matches : Nat
deriving DecidableEq

/-- The in-memory state of a `Hosts` collection: the ordered entry list
(the file path and the I/O it names are external). -/
structure Hosts where
  entries : List HostsEntry
deriving DecidableEq

/-- Nonemptiness of `set(xs).intersection(ys)` for the optional name
lists. -/
def namesInter (xs ys : Option (List String)) : Bool :=
  (xs.getD []).any fun n => (ys.getD []).contains n

/-- The name-match condition of `Hosts.count`: both name lists truthy and
`set(entry.names).intersection(existing_names)` nonempty, for an
ipv4/ipv6 `entry`. -/
def nameCond (entry host : HostsEntry) : Bool :=
  (entry.entry_type == "ipv4" || entry.entry_type == "ipv6") &&
  (truthyNames host.names && truthyNames entry.names) &&
  namesInter entry.names host.names

/-- The address-match condition of `Hosts.count`: the existing address is
truthy and equals `entry.address`, for an ipv4/ipv6 `entry`. -/
def addrCond (entry host : HostsEntry) : Bool :=
  (entry.entry_type == "ipv4" || entry.entry_type == "ipv6") &&
  truthyStr host.address && host.address == entry.address

/-- The comment-match condition of `Hosts.count`: the existing comment
equals `entry.comment` (Python `==`, so `None == None` also matches), for a
comment `entry`. -/
def commentCond (entry host : HostsEntry) : Bool :=
  entry.entry_type == "comment" && host.comment == entry.comment

/-- One iteration of the scan loop in `Hosts.count`. -/
def countStep (entry : HostsEntry) (acc : CountResult) (host : HostsEntry) :
    CountResult :=
  let acc := if nameCond entry host then
    { acc with name_matches := acc.name_matches + 1 } else acc
  let acc := if addrCond entry host then
    { acc with address_matches := acc.address_matches + 1 } else acc
  if commentCond entry host then
    { acc with comment_matches := acc.comment_matches + 1 } else acc

/-- `Hosts.count`: one scan over the entries, incrementing the three
counters independently. -/
def Hosts.count (h : Hosts) (entry : HostsEntry) : CountResult :=
  h.entries.foldl (countStep entry) ⟨0, 0, 0⟩

/-- The address/name removal condition of `Hosts.remove`: both name lists
truthy, and any of address equality, exact name-list equality, or name-set
intersection. Only this branch increments the `removed` counter. -/
def removeMatch (entry existing : HostsEntry) : Bool :=
  truthyNames existing.names && truthyNames entry.names &&
  (existing.address == entry.address || existing.names == entry.names ||
   namesInter existing.names entry.names)

/-- The comment removal condition of `Hosts.remove`: `entry.comment` truthy
and equal to the existing comment. This branch appends to the removal list
but does not touch the `removed` counter. -/
def commentMatch (entry existing : HostsEntry) : Bool :=
  truthyStr entry.comment && existing.comment == entry.comment

/-- One iteration of the scan loop in `Hosts.remove` over position-tagged
entries, carrying the removal list (as position tags, in append order) and
the `removed` counter. An existing entry matching both branches is appended
twice, as in the source. -/
def removeStep (entry : HostsEntry) (acc : List Nat × Nat)
    (ie : Nat × HostsEntry) : List Nat × Nat :=
  let acc := if removeMatch entry ie.2 then (acc.1 ++ [ie.1], acc.2 + 1)
    else acc
  if commentMatch entry ie.2 then (acc.1 ++ [ie.1], acc.2) else acc

/-- Python `list.remove(x)`: removes the first element `==` the argument.
`HostsEntry` defines no `__eq__`, so equality is object identity, modelled
by the position tag each element of the scanned list carries; when no
element with the tag is left the call raises `ValueError`. -/
def pyListRemove (tag : Nat) :
    List (Nat × HostsEntry) → Except HostsError (List (Nat × HostsEntry))
  | [] => .error .valueError
  | ie :: rest =>
    if ie.1 = tag then .ok rest
    else (pyListRemove tag rest).map (ie :: ·)

/-- The removal loop of `Hosts.remove`: removes the listed tags in order and
returns the remaining entries together with the `ValueError`, if one was
raised; the returned list keeps the removals made before the raise, as the
mutated Python state does. -/
def removeAll : List Nat → List (Nat × HostsEntry) →
    List (Nat × HostsEntry) × Option HostsError
  | [], es => (es, none)
  | t :: ts, es =>
    match pyListRemove t es with
    | .ok es2 => removeAll ts es2
    | .error e => (es, some e)

/-- `Hosts.remove`: scan the entries building the removal list, remove each
listed entry with `list.remove` semantics, and return the resulting state
together with the outcome: the boolean return (whether the address/name
counter is positive), or the `ValueError` raised when one existing entry
matched both branches and its second identity-based removal found nothing.
The state is returned in both cases, since the source mutates
`self.entries` before the raise. A `HostsEntry` instance is always truthy
in Python, so the caller-supplied `entry` is modelled as present. -/
def Hosts.remove (h : Hosts) (entry : HostsEntry) :
    Hosts × Except HostsError Bool :=
  let indexed := h.entries.enum
  let acc := indexed.foldl (removeStep entry) ([], 0)
  let res := removeAll acc.1 indexed
  ({ entries := res.1.map Prod.snd },
   match res.2 with
   | some e => .error e
   | none => .ok (decide (0 < acc.2)))

/-- `Hosts.add` for a pre-built entry: duplicate comments are rejected; an
ipv4/ipv6 entry with a nonzero address or name match count is rejected
unless `force`, in which case conflicting entries are removed first (an
exception raised by `remove` propagates, leaving the partially mutated
state); the entry is then appended at the end. (The write-back to disk is
external.) -/
def Hosts.add (h : Hosts) (entry : HostsEntry) (force : Bool) :
    Hosts × Except HostsError Bool :=
  if entry.entry_type == "comment" && (h.count entry).comment_matches != 0 then
    (h, .ok false)
  else if entry.entry_type == "ipv4" || entry.entry_type == "ipv6" then
    let existing := h.count entry
    if !force && (existing.address_matches != 0 || existing.name_matches != 0) then
      (h, .ok false)
    else if force then
      match h.remove entry with
      | (h2, .error e) => (h2, .error e)
      | (h2, .ok _) => ({ entries := h2.entries ++ [entry] }, .ok true)
    else
      ({ entries := h.entries ++ [entry] }, .ok true)
  else
    ({ entries := h.entries ++ [entry] }, .ok true)

/-- The text `Hosts.write` emits for one entry: the stored comment verbatim,
a bare newline for a blank, or address, tab, space-joined names, newline for
an address entry. Writing a `None` field would raise `TypeError` in Python;
the `getD` defaults are only reached outside the constructor invariants. -/
def write_line (line : HostsEntry) : String :=
  (if line.entry_type == "comment" then line.comment.getD "" else "") ++
  (if line.entry_type == "blank" then "\n" else "") ++
  (if line.entry_type == "ipv4" then
    line.address.getD "" ++ "\t" ++ String.intercalate " " (line.names.getD []) ++ "\n"
   else "") ++
  (if line.entry_type == "ipv6" then
    line.address.getD "" ++ "\t" ++ String.intercalate " " (line.names.getD []) ++ "\n"
   else "")

/-- `Hosts.write`: the file content produced by writing every entry in
order (sequential writes become concatenation). -/
def Hosts.write : List HostsEntry → String
  | [] => ""
  | line :: rest => write_line line ++ Hosts.write rest

/-- The entries `populate_entries` appends for one raw line: a comment entry
holding the whole raw line, a blank entry, an ipv4/ipv6 entry built from the
split line, or nothing at all when `get_entry_type` returned `False`. -/
def populate_line (line : String) : Except HostsError (List HostsEntry) :=
  match HostsEntry.get_entry_type line with
  | none => .error .indexError
  | some et =>
    if et == some "comment" then
      (HostsEntry.init (some "comment") none (some line) none).map fun e => [e]
    else if et == some "blank" then
      (HostsEntry.init (some "blank") none none none).map fun e => [e]
    else if et == some "ipv4" || et == some "ipv6" then
      match pySplit line with
      | [] => .error .indexError
      | addr :: rest =>
        (HostsEntry.init et (some addr) none (some rest)).map fun e => [e]
    else
      .ok []

/-- `Hosts.populate_entries` over the raw lines the file iteration yields:
entries accumulate in order; an uncaught exception from classification or
construction aborts the load (only `IOError` is caught in the source). -/
def populate_entries : List String → Except HostsError (List HostsEntry)
  | [] => .ok []
  | line :: rest =>
    match populate_line line, populate_entries rest with
    | .error e, _ => .error e
    | .ok _, .error e => .error e
    | .ok hd, .ok tl => .ok (hd ++ tl)

/-- Concatenation of raw lines: the byte content of the file they came
from. -/
def cat_lines : List String → String
  | [] => ""
  | l :: ls => l ++ cat_lines ls

/-! ## Helper lemmas -/

lemma truthyStr_some {s : String} (h : s ≠ "") : truthyStr (some s) = true := by
  simp [truthyStr, h]

lemma ne_empty_of_data_cons {s : String} {c : Char} {cs : List Char}
    (h : s.data = c :: cs) : s ≠ "" := by
  intro he
  rw [he] at h
  simp at h

lemma countStep_foldl (entry : HostsEntry) :
    ∀ (l : List HostsEntry) (a : CountResult),
      l.foldl (countStep entry) a =
        ⟨a.address_matches + l.countP (addrCond entry),
         a.name_matches + l.countP (nameCond entry),
         a.comment_matches + l.countP (commentCond entry)⟩
  | [], a => by simp
  | host :: l, a => by
    rw [List.foldl_cons, countStep_foldl entry l]
    simp only [List.countP_cons, countStep]
    by_cases h1 : nameCond entry host <;> by_cases h2 : addrCond entry host <;>
      by_cases h3 : commentCond entry host <;>
        simp [h1, h2, h3, CountResult.mk.injEq] <;> omega

lemma count_spec (h : Hosts) (entry : HostsEntry) :
    h.count entry =
      ⟨h.entries.countP (addrCond entry),
       h.entries.countP (nameCond entry),
       h.entries.countP (commentCond entry)⟩ := by
  unfold Hosts.count
  rw [countStep_foldl]
  simp

lemma mem_entries_of_mem_enum {l : List HostsEntry} {ie : Nat × HostsEntry}
    (h : ie ∈ l.enum) : ie.2 ∈ l := by
  have := List.mem_map_of_mem Prod.snd h
  rwa [List.enum_map_snd] at this

lemma enum_snd_unique {l : List HostsEntry} {i : Nat} {a b : HostsEntry}
    (ha : (i, a) ∈ l.enum) (hb : (i, b) ∈ l.enum) : a = b := by
  rw [List.mem_enum_iff_getElem?] at ha hb
  rw [ha] at hb
  exact Option.some.inj hb

lemma removeStep_foldl_snd (entry : HostsEntry) :
    ∀ (l : List (Nat × HostsEntry)) (a : List Nat × Nat),
      (l.foldl (removeStep entry) a).2 =
        a.2 + l.countP fun ie => removeMatch entry ie.2
  | [], a => by simp
  | ie :: l, a => by
    rw [List.foldl_cons, removeStep_foldl_snd entry l]
    simp only [List.countP_cons, removeStep]
    by_cases h1 : removeMatch entry ie.2 <;>
      by_cases h2 : commentMatch entry ie.2 <;>
        simp [h1, h2] <;> omega

lemma removeStep_fst_mem (entry : HostsEntry) (a : List Nat × Nat)
    (ie : Nat × HostsEntry) (t : Nat) (ht : t ∈ (removeStep entry a ie).1) :
    t ∈ a.1 ∨ (t = ie.1 ∧
      (removeMatch entry ie.2 || commentMatch entry ie.2) = true) := by
  unfold removeStep at ht
  by_cases h1 : removeMatch entry ie.2 <;>
    by_cases h2 : commentMatch entry ie.2 <;>
      simp [h1, h2] at ht ⊢ <;> tauto

lemma removeStep_foldl_fst_mem (entry : HostsEntry) :
    ∀ (l : List (Nat × HostsEntry)) (a : List Nat × Nat) (t : Nat),
      t ∈ (l.foldl (removeStep entry) a).1 →
        t ∈ a.1 ∨ ∃ ie ∈ l, ie.1 = t ∧
          (removeMatch entry ie.2 || commentMatch entry ie.2) = true
  | [], a, t => fun ht => Or.inl ht
  | ie :: l, a, t => by
    intro ht
    rcases removeStep_foldl_fst_mem entry l (removeStep entry a ie) t ht with
      ht0 | ⟨ie2, hmem, hfst, hmatch⟩
    · rcases removeStep_fst_mem entry a ie t ht0 with hh | ⟨rfl, hm⟩
      · exact Or.inl hh
      · exact Or.inr ⟨ie, List.mem_cons_self _ _, rfl, hm⟩
    · exact Or.inr ⟨ie2, List.mem_cons_of_mem _ hmem, hfst, hmatch⟩

lemma removeStep_foldl_fst_nodouble (entry : HostsEntry) :
    ∀ (l : List (Nat × HostsEntry)) (a : List Nat × Nat),
      (∀ ie ∈ l, ¬(removeMatch entry ie.2 = true ∧ commentMatch entry ie.2 = true)) →
      (l.foldl (removeStep entry) a).1 =
        a.1 ++ (l.filter fun ie =>
          removeMatch entry ie.2 || commentMatch entry ie.2).map Prod.fst
  | [], a, _ => by simp
  | ie :: l, a, hnd => by
    rw [List.foldl_cons, removeStep_foldl_fst_nodouble entry l _
      fun x hx => hnd x (List.mem_cons_of_mem _ hx)]
    have hie := hnd ie (List.mem_cons_self _ _)
    simp only [List.filter_cons, removeStep]
    by_cases h1 : removeMatch entry ie.2 <;>
      by_cases h2 : commentMatch entry ie.2 <;>
        simp [h1, h2] at hie ⊢

lemma pyListRemove_mem {t : Nat} :
    ∀ {es es2 : List (Nat × HostsEntry)}, pyListRemove t es = .ok es2 →
      ∀ ie ∈ es2, ie ∈ es
  | [], es2, h => by
    simp [pyListRemove] at h
  | ie0 :: rest, es2, h => by
    intro ie hie
    unfold pyListRemove at h
    by_cases h0 : ie0.1 = t
    · rw [if_pos h0] at h
      cases h
      exact List.mem_cons_of_mem _ hie
    · rw [if_neg h0] at h
      cases hrec : pyListRemove t rest with
      | error e => rw [hrec] at h; cases h
      | ok es2x =>
        rw [hrec] at h
        cases h
        rcases List.mem_cons.mp hie with rfl | hie2
        · exact List.mem_cons_self _ _
        · exact List.mem_cons_of_mem _ (pyListRemove_mem hrec ie hie2)

lemma filter_pyListRemove {P : Nat × HostsEntry → Bool} {t : Nat} :
    ∀ {es es2 : List (Nat × HostsEntry)}, pyListRemove t es = .ok es2 →
      (∀ ie ∈ es, ie.1 = t → P ie = false) →
      es2.filter P = es.filter P
  | [], es2, h => by
    simp [pyListRemove] at h
  | ie0 :: rest, es2, h => by
    intro hP
    unfold pyListRemove at h
    by_cases h0 : ie0.1 = t
    · rw [if_pos h0] at h
      cases h
      have : P ie0 = false := hP ie0 (List.mem_cons_self _ _) h0
      simp [List.filter_cons, this]
    · rw [if_neg h0] at h
      cases hrec : pyListRemove t rest with
      | error e => rw [hrec] at h; cases h
      | ok es2x =>
        rw [hrec] at h
        cases h
        have hrest := filter_pyListRemove hrec
          fun ie hie ht => hP ie (List.mem_cons_of_mem _ hie) ht
        simp only [List.filter_cons, hrest]

lemma filter_removeAll {P : Nat × HostsEntry → Bool} :
    ∀ (tags : List Nat) (es : List (Nat × HostsEntry)),
      (∀ t ∈ tags, ∀ ie ∈ es, ie.1 = t → P ie = false) →
      ((removeAll tags es).1).filter P = es.filter P
  | [], es, _ => rfl
  | t :: ts, es, hP => by
    unfold removeAll
    cases hrm : pyListRemove t es with
    | error e => rfl
    | ok es2 =>
      have h1 : es2.filter P = es.filter P :=
        filter_pyListRemove hrm fun ie hie hh =>
          hP t (List.mem_cons_self _ _) ie hie hh
      have h2 : ((removeAll ts es2).1).filter P = es2.filter P :=
        filter_removeAll ts es2 fun u hu ie hie hh =>
          hP u (List.mem_cons_of_mem _ hu) ie (pyListRemove_mem hrm ie hie) hh
      rw [h2, h1]

lemma pyListRemove_nodup {t : Nat} :
    ∀ {es : List (Nat × HostsEntry)}, (es.map Prod.fst).Nodup →
      t ∈ es.map Prod.fst →
      pyListRemove t es = .ok (es.filter fun ie => !decide (ie.1 = t))
  | [], _, hmem => by simp at hmem
  | ie0 :: rest, hnd, hmem => by
    unfold pyListRemove
    by_cases h0 : ie0.1 = t
    · rw [if_pos h0]
      have hnot : ∀ ie ∈ rest, (!decide (ie.1 = t)) = true := by
        intro ie hie
        have : ie.1 ∈ rest.map Prod.fst := List.mem_map_of_mem Prod.fst hie
        have hne : ie.1 ≠ t := by
          intro he
          rw [he] at this
          rw [List.map_cons, List.nodup_cons] at hnd
          rw [h0] at hnd
          exact hnd.1 this
        simp [hne]
      rw [List.filter_cons]
      simp [h0, List.filter_eq_self.mpr hnot]
    · rw [if_neg h0]
      have hmem2 : t ∈ rest.map Prod.fst := by
        rcases List.mem_map.mp hmem with ⟨ie, hie, hfst⟩
        rcases List.mem_cons.mp hie with rfl | hie2
        · exact absurd hfst h0
        · exact List.mem_map.mpr ⟨ie, hie2, hfst⟩
      have hnd2 : (rest.map Prod.fst).Nodup := by
        rw [List.map_cons, List.nodup_cons] at hnd
        exact hnd.2
      rw [pyListRemove_nodup hnd2 hmem2]
      rw [List.filter_cons]
      simp [h0, Except.map]

lemma removeAll_nodup :
    ∀ (tags : List Nat) (es : List (Nat × HostsEntry)),
      (es.map Prod.fst).Nodup → tags.Nodup →
      (∀ t ∈ tags, t ∈ es.map Prod.fst) →
      removeAll tags es = (es.filter fun ie => !decide (ie.1 ∈ tags), none)
  | [], es, _, _, _ => by
    simp [removeAll, List.filter_eq_self]
  | t :: ts, es, hes, htags, hsub => by
    have hstep : removeAll (t :: ts) es =
        removeAll ts (es.filter fun ie => !decide (ie.1 = t)) := by
      simp only [removeAll]
      rw [pyListRemove_nodup hes (hsub t (List.mem_cons_self _ _))]
    have hfil_nodup :
        (((es.filter fun ie => !decide (ie.1 = t)).map Prod.fst)).Nodup :=
      hes.sublist ((List.filter_sublist es).map Prod.fst)
    have hts_nodup : ts.Nodup := (List.nodup_cons.mp htags).2
    have hnotts : t ∉ ts := (List.nodup_cons.mp htags).1
    have hsub2 : ∀ u ∈ ts,
        u ∈ (es.filter fun ie => !decide (ie.1 = t)).map Prod.fst := by
      intro u hu
      rcases List.mem_map.mp (hsub u (List.mem_cons_of_mem _ hu)) with
        ⟨ie, hie, hfst⟩
      have hut : u ≠ t := by
        intro he
        rw [he] at hu
        exact hnotts hu
      refine List.mem_map.mpr ⟨ie, List.mem_filter.mpr ⟨hie, ?_⟩, hfst⟩
      simp [hfst, hut]
    rw [hstep, removeAll_nodup ts _ hfil_nodup hts_nodup hsub2]
    have hfe : ∀ ie : Nat × HostsEntry,
        ((!decide (ie.1 ∈ ts)) && (!decide (ie.1 = t))) =
          !decide (ie.1 ∈ t :: ts) := by
      intro ie
      by_cases hh1 : ie.1 = t <;> by_cases hh2 : ie.1 ∈ ts <;>
        simp [hh1, hh2]
    rw [List.filter_filter]
    simp only [hfe]

lemma countP_snd (p : HostsEntry → Bool) :
    ∀ l : List (Nat × HostsEntry),
      (l.countP fun ie => p ie.2) = (l.map Prod.snd).countP p
  | [] => rfl
  | ie :: l => by
    simp [List.countP_cons, countP_snd p l]

lemma countP_enum_snd (p : HostsEntry → Bool) (l : List HostsEntry) :
    (l.enum.countP fun ie => p ie.2) = l.countP p := by
  rw [countP_snd, List.enum_map_snd]

lemma map_snd_filter (p : HostsEntry → Bool) :
    ∀ l : List (Nat × HostsEntry),
      (l.filter fun ie => p ie.2).map Prod.snd = (l.map Prod.snd).filter p
  | [] => rfl
  | ie :: l => by
    simp only [List.filter_cons, List.map_cons]
    by_cases hp : p ie.2 <;> simp [hp, map_snd_filter p l]

lemma remove_snd_nodouble (h : Hosts) (entry : HostsEntry)
    (hnd : ∀ e ∈ h.entries,
      ¬(removeMatch entry e = true ∧ commentMatch entry e = true)) :
    (h.remove entry).2 =
      .ok (decide (0 < h.entries.countP (removeMatch entry))) := by
  have hndp : ∀ ie ∈ h.entries.enum,
      ¬(removeMatch entry ie.2 = true ∧ commentMatch entry ie.2 = true) :=
    fun ie hie => hnd ie.2 (mem_entries_of_mem_enum hie)
  have hfst_nodup : (h.entries.enum.map Prod.fst).Nodup := by
    rw [List.enum_map_fst]
    exact List.nodup_range _
  have htags_nodup :
      (((h.entries.enum.filter fun ie =>
        removeMatch entry ie.2 || commentMatch entry ie.2).map Prod.fst)).Nodup :=
    hfst_nodup.sublist ((List.filter_sublist _).map Prod.fst)
  have htags_sub : ∀ t ∈ (h.entries.enum.filter fun ie =>
      removeMatch entry ie.2 || commentMatch entry ie.2).map Prod.fst,
      t ∈ h.entries.enum.map Prod.fst := by
    intro t ht
    rcases List.mem_map.mp ht with ⟨ie, hie, hfst⟩
    exact List.mem_map.mpr ⟨ie, (List.mem_filter.mp hie).1, hfst⟩
  simp only [Hosts.remove]
  rw [removeStep_foldl_fst_nodouble entry h.entries.enum ([], 0) hndp,
    List.nil_append,
    removeAll_nodup _ _ hfst_nodup htags_nodup htags_sub,
    removeStep_foldl_snd entry, countP_enum_snd]
  simp

lemma remove_nc (h : Hosts) (entry : HostsEntry)
    (hc : truthyStr entry.comment = false) :
    h.remove entry =
      (⟨h.entries.filter fun e => !removeMatch entry e⟩,
       .ok (decide (0 < h.entries.countP (removeMatch entry)))) := by
  have hcm : ∀ e : HostsEntry, commentMatch entry e = false := by
    intro e
    simp [commentMatch, hc]
  have hndp : ∀ ie ∈ h.entries.enum,
      ¬(removeMatch entry ie.2 = true ∧ commentMatch entry ie.2 = true) := by
    intro ie _ hcontra
    rw [hcm ie.2] at hcontra
    exact absurd hcontra.2 (by simp)
  have hfilter_eq : (h.entries.enum.filter fun ie =>
      removeMatch entry ie.2 || commentMatch entry ie.2) =
      h.entries.enum.filter fun ie => removeMatch entry ie.2 :=
    List.filter_congr fun ie _ => by rw [hcm ie.2, Bool.or_false]
  have hfst_nodup : (h.entries.enum.map Prod.fst).Nodup := by
    rw [List.enum_map_fst]
    exact List.nodup_range _
  have htags_nodup :
      (((h.entries.enum.filter fun ie =>
        removeMatch entry ie.2).map Prod.fst)).Nodup :=
    hfst_nodup.sublist ((List.filter_sublist _).map Prod.fst)
  have htags_sub : ∀ t ∈ (h.entries.enum.filter fun ie =>
      removeMatch entry ie.2).map Prod.fst,
      t ∈ h.entries.enum.map Prod.fst := by
    intro t ht
    rcases List.mem_map.mp ht with ⟨ie, hie, hfst⟩
    exact List.mem_map.mpr ⟨ie, (List.mem_filter.mp hie).1, hfst⟩
  have hmem_iff : ∀ ie ∈ h.entries.enum,
      (!decide (ie.1 ∈ (h.entries.enum.filter fun ie2 =>
        removeMatch entry ie2.2).map Prod.fst)) = !removeMatch entry ie.2 := by
    intro ie hie
    by_cases hrm : removeMatch entry ie.2 = true
    · have : ie.1 ∈ (h.entries.enum.filter fun ie2 =>
          removeMatch entry ie2.2).map Prod.fst :=
        List.mem_map.mpr ⟨ie, List.mem_filter.mpr ⟨hie, hrm⟩, rfl⟩
      simp [this, hrm]
    · have : ie.1 ∉ (h.entries.enum.filter fun ie2 =>
          removeMatch entry ie2.2).map Prod.fst := by
        intro hmem
        rcases List.mem_map.mp hmem with ⟨ie2, hie2, hfst⟩
        have hie2e := (List.mem_filter.mp hie2).1
        have hrm2 := (List.mem_filter.mp hie2).2
        have hsnd : ie2.2 = ie.2 := by
          have h1 : (ie.1, ie2.2) ∈ h.entries.enum := by
            rw [show (ie.1, ie2.2) = ie2 from Prod.ext hfst.symm rfl]
            exact hie2e
          have h2 : (ie.1, ie.2) ∈ h.entries.enum := hie
          exact enum_snd_unique h1 h2
        rw [hsnd] at hrm2
        exact hrm hrm2
      simp [this, hrm]
  have hfilter2 : (h.entries.enum.filter fun ie =>
      !decide (ie.1 ∈ (h.entries.enum.filter fun ie2 =>
        removeMatch entry ie2.2).map Prod.fst)) =
      h.entries.enum.filter fun ie => !removeMatch entry ie.2 :=
    List.filter_congr hmem_iff
  simp only [Hosts.remove]
  rw [removeStep_foldl_fst_nodouble entry h.entries.enum ([], 0) hndp,
    List.nil_append, hfilter_eq,
    removeAll_nodup _ _ hfst_nodup htags_nodup htags_sub,
    removeStep_foldl_snd entry, countP_enum_snd]
  rw [hfilter2]
  simp [map_snd_filter, List.enum_map_snd]
  exact (map_snd_filter (fun e => !removeMatch entry e) h.entries.enum).trans
    (by rw [List.enum_map_snd])

lemma init_comment_ok {l : String} (hl : l ≠ "") :
    HostsEntry.init (some "comment") none (some l) none =
      .ok ⟨"comment", none, some l, none⟩ := by
  simp [HostsEntry.init, truthyStr, hl]

lemma init_blank_ok :
    HostsEntry.init (some "blank") none none none =
      .ok ⟨"blank", none, none, none⟩ := rfl

lemma get_entry_type_comment {l : String} {cs : List Char}
    (h : l.data = '#' :: cs) :
    HostsEntry.get_entry_type l = some (some "comment") := by
  unfold HostsEntry.get_entry_type
  rw [h]
  rfl

lemma populate_line_comment {l : String} {cs : List Char}
    (h : l.data = '#' :: cs) :
    populate_line l = .ok [⟨"comment", none, some l, none⟩] := by
  unfold populate_line
  rw [get_entry_type_comment h]
  simp [init_comment_ok (ne_empty_of_data_cons h), Except.map]

lemma populate_entries_cons (l : String) (ls : List String) :
    populate_entries (l :: ls) =
      match populate_line l, populate_entries ls with
      | .error e, _ => .error e
      | .ok _, .error e => .error e
      | .ok hd, .ok tl => .ok (hd ++ tl) := rfl

lemma write_line_comment (l : String) :
    write_line ⟨"comment", none, some l, none⟩ = l := by
  simp [write_line]

lemma write_line_blank :
    write_line ⟨"blank", none, none, none⟩ = "\n" := rfl

/-! ## Claim theorems -/

/-- Sanity check of the raising path: when one existing entry matches both
the address/name and the comment branch, it is appended to the removal list
twice and the second identity-based `list.remove` raises `ValueError`. -/
lemma remove_raises_on_double_match :
    (Hosts.remove ⟨[⟨"ipv4", some "1.2.3.4", some "#c", some ["n"]⟩]⟩
        ⟨"ipv4", some "1.2.3.4", some "#c", some ["n"]⟩).2 =
      .error .valueError := rfl

/-- Claim C1 counterexample: on a collection holding one comment entry,
removing an entry with the same comment text deletes the comment entry
(the entry list becomes empty) yet `remove` returns false, because only the
address/name branch increments the `removed` counter. -/
theorem c1_counterexample :
    (Hosts.remove ⟨[⟨"comment", none, some "#dup", none⟩]⟩
        ⟨"comment", none, some "#dup", none⟩).2 = Except.ok false
    ∧ (Hosts.remove ⟨[⟨"comment", none, some "#dup", none⟩]⟩
        ⟨"comment", none, some "#dup", none⟩).1.entries = [] :=
  ⟨rfl, rfl⟩

/-- Claim C1 (amended): when no existing entry matches both the
address/name condition and the comment condition at once (otherwise the
call raises `ValueError` from the duplicated `list.remove`), `remove(entry)`
returns true iff at least one existing entry satisfies the address/name
matching condition (both name lists truthy and address equality, name-list
equality or name-set intersection); entries removed only through the
comment-text branch do not make the call return true. -/
theorem c1_remove_true_iff_address_name_match (h : Hosts) (entry : HostsEntry)
    (hnd : ∀ e ∈ h.entries,
      ¬(removeMatch entry e = true ∧ commentMatch entry e = true)) :
    (h.remove entry).2 = Except.ok true ↔
      ∃ e ∈ h.entries, removeMatch entry e = true := by
  rw [remove_snd_nodouble h entry hnd]
  simp [List.countP_pos_iff]

/-- Claim C1 witness: the amended return-value rule at a concrete
address-matching removal. -/
theorem c1_witness :
    (Hosts.remove ⟨[⟨"ipv4", some "1.2.3.4", none, some ["x"]⟩]⟩
        ⟨"ipv4", some "1.2.3.4", none, some ["y"]⟩).2 = Except.ok true ↔
      ∃ e ∈ ([⟨"ipv4", some "1.2.3.4", none, some ["x"]⟩] : List HostsEntry),
        removeMatch ⟨"ipv4", some "1.2.3.4", none, some ["y"]⟩ e = true :=
  c1_remove_true_iff_address_name_match _ _ (by decide)

/-- Claim C5 counterexample: classifying the empty string raises an
`IndexError` (modelled `none`) instead of returning blank. -/
theorem c5_counterexample :
    HostsEntry.get_entry_type "" = none
    ∧ HostsEntry.get_entry_type "" ≠ some (some "blank") :=
  ⟨rfl, by decide⟩

/-- Claim C5 (amended): classification of a raw line follows the code's
order: an empty line raises an error (no blank result); a line whose first
character is hash is a comment; else a first character newline is blank;
else the first whitespace token decides ipv4/ipv6/failure-signal, and a
line with no token (whitespace-only) raises an error. -/
theorem c5_classification_rule (s : String) :
    (s = "" → HostsEntry.get_entry_type s = none)
    ∧ (∀ cs, s.data = '#' :: cs → HostsEntry.get_entry_type s = some (some "comment"))
    ∧ (∀ cs, s.data = '\n' :: cs → HostsEntry.get_entry_type s = some (some "blank"))
    ∧ (∀ c cs t ts, s.data = c :: cs → c ≠ '#' → c ≠ '\n' → pySplit s = t :: ts →
        HostsEntry.get_entry_type s =
          (if is_ipv4 t then some (some "ipv4")
           else if is_ipv6 t then some (some "ipv6") else some none))
    ∧ (∀ c cs, s.data = c :: cs → c ≠ '#' → c ≠ '\n' → pySplit s = [] →
        HostsEntry.get_entry_type s = none) := by
  refine ⟨?_, ?_, ?_, ?_, ?_⟩
  · intro he
    subst he
    rfl
  · intro cs h
    exact get_entry_type_comment h
  · intro cs h
    unfold HostsEntry.get_entry_type
    rw [h]
    rfl
  · intro c cs t ts h h2 h3 h4
    unfold HostsEntry.get_entry_type
    rw [h]
    have hc2 : (c == '#') = false := by simp [h2]
    have hc3 : (c == '\n') = false := by simp [h3]
    simp [hc2, hc3, h4]
  · intro c cs h h2 h3 h4
    unfold HostsEntry.get_entry_type
    rw [h]
    have hc2 : (c == '#') = false := by simp [h2]
    have hc3 : (c == '\n') = false := by simp [h3]
    simp [hc2, hc3, h4]

/-- Claim C3 counterexample: loading a file whose only line has an
unclassifiable first token succeeds with an empty entry list — the line is
silently skipped, the load does not fail. -/
theorem c3_counterexample :
    populate_entries ["zzz zzz\n"] = .ok [] := rfl

/-- Claim C3 (amended): a line whose first token is neither a valid IPv4
nor IPv6 address (and that is not blank or a comment, but does have a first
token) is silently skipped during load: the load result is exactly that of
the remaining lines, not an error. -/
theorem c3_unparseable_line_skipped (l : String) (c : Char) (cs : List Char)
    (t : String) (ts rest : List String)
    (h1 : l.data = c :: cs) (h2 : c ≠ '#') (h3 : c ≠ '\n')
    (h4 : pySplit l = t :: ts) (h5 : is_ipv4 t = false) (h6 : is_ipv6 t = false) :
    populate_entries (l :: rest) = populate_entries rest := by
  have hget : HostsEntry.get_entry_type l = some none := by
    unfold HostsEntry.get_entry_type
    rw [h1]
    have hc2 : (c == '#') = false := by simp [h2]
    have hc3 : (c == '\n') = false := by simp [h3]
    simp [hc2, hc3, h4, h5, h6]
  have hline : populate_line l = .ok [] := by
    unfold populate_line
    rw [hget]
    rfl
  rw [populate_entries_cons, hline]
  cases hrec : populate_entries rest <;> simp

/-- Claim C3 witness: the skip behavior at a concrete unclassifiable
line. -/
theorem c3_witness :
    populate_entries ["zzz zzz\n", "# a\n"] = populate_entries ["# a\n"] :=
  c3_unparseable_line_skipped "zzz zzz\n" 'z' ['z', 'z', ' ', 'z', 'z', 'z', '\n']
    "zzz" ["zzz"] ["# a\n"] rfl (by decide) (by decide) rfl rfl rfl

/-- Claim C4 counterexample: the well-formed file consisting of the single
line with a space between address and hostname loads fine, but serializing
writes a tab, so the round trip is not byte-identical. -/
theorem c4_counterexample :
    populate_entries ["1.2.3.4 host\n"] =
      .ok [⟨"ipv4", some "1.2.3.4", none, some ["host"]⟩]
    ∧ Hosts.write [⟨"ipv4", some "1.2.3.4", none, some ["host"]⟩] = "1.2.3.4\thost\n"
    ∧ cat_lines ["1.2.3.4 host\n"] = "1.2.3.4 host\n"
    ∧ ("1.2.3.4\thost\n" : String) ≠ "1.2.3.4 host\n" :=
  ⟨rfl, rfl, rfl, by decide⟩

/-- Claim C4 (amended): the load-then-serialize round trip is byte-identical
for files made only of comment and blank lines (those are stored and written
verbatim); ipv4/ipv6 lines are re-serialized in the normalized
address-tab-names form, so they reproduce the input only when it already has
that exact shape. -/
theorem c4_roundtrip_comment_blank (lines : List String)
    (h : ∀ l ∈ lines, l = "\n" ∨ l.data.head? = some '#') :
    ∃ es, populate_entries lines = .ok es ∧ Hosts.write es = cat_lines lines := by
  induction lines with
  | nil => exact ⟨[], rfl, rfl⟩
  | cons l ls ih =>
    obtain ⟨es, hpop, hwrite⟩ := ih fun x hx => h x (List.mem_cons_of_mem _ hx)
    rcases h l (List.mem_cons_self _ _) with hbl | hcm
    · subst hbl
      refine ⟨⟨"blank", none, none, none⟩ :: es, ?_, ?_⟩
      · rw [populate_entries_cons, hpop]
        rfl
      · simp [Hosts.write, cat_lines, write_line_blank, hwrite]
    · obtain ⟨cs, hdata⟩ : ∃ cs, l.data = '#' :: cs := by
        cases hd : l.data with
        | nil =>
          rw [hd] at hcm
          simp at hcm
        | cons a as =>
          rw [hd] at hcm
          simp at hcm
          subst hcm
          exact ⟨as, rfl⟩
      refine ⟨⟨"comment", none, some l, none⟩ :: es, ?_, ?_⟩
      · rw [populate_entries_cons, populate_line_comment hdata, hpop]
        rfl
      · simp [Hosts.write, cat_lines, write_line_comment, hwrite]

/-- Claim C4 witness: byte-identical round trip at a concrete two-line
comment-and-blank file. -/
theorem c4_witness :
    ∃ es, populate_entries ["# c\n", "\n"] = .ok es
      ∧ Hosts.write es = cat_lines ["# c\n", "\n"] :=
  c4_roundtrip_comment_blank ["# c\n", "\n"] (by decide)

/-- Claim C2 counterexample: `str_to_hostentry` on a comment line with a
space keeps only the first token of the stripped line as the comment text,
not the whole raw line. -/
theorem c2_counterexample :
    HostsEntry.str_to_hostentry "# hello" =
      .ok (some ⟨"comment", none, some "#", none⟩)
    ∧ ("#" : String) ≠ "# hello" :=
  ⟨rfl, by decide⟩

/-- Claim C2 (amended): on the load path a comment line's whole raw text,
hash included, becomes the comment field verbatim and `write` emits it back
unchanged; `str_to_hostentry`, by contrast, stores only the first
whitespace-delimited token of the stripped line as the comment. -/
theorem c2_comment_verbatim_on_load_only (l l2 t : String) (cs : List Char)
    (ls : List String) (es : List HostsEntry) (rest : List String)
    (h1 : l.data = '#' :: cs)
    (h2 : pySplit (pyStrip l2) = t :: rest)
    (h3 : t.data.head? = some '#') :
    populate_entries (l :: ls) =
      (populate_entries ls).map (fun tl => ⟨"comment", none, some l, none⟩ :: tl)
    ∧ Hosts.write (⟨"comment", none, some l, none⟩ :: es) = l ++ Hosts.write es
    ∧ HostsEntry.str_to_hostentry l2 = .ok (some ⟨"comment", none, some t, none⟩) := by
  refine ⟨?_, ?_, ?_⟩
  · rw [populate_entries_cons, populate_line_comment h1]
    cases hrec : populate_entries ls <;> simp [Except.map]
  · simp [Hosts.write, write_line_comment]
  · obtain ⟨tcs, htd⟩ : ∃ tcs, t.data = '#' :: tcs := by
      cases hd : t.data with
      | nil =>
        rw [hd] at h3
        simp at h3
      | cons a as =>
        rw [hd] at h3
        simp at h3
        subst h3
        exact ⟨as, rfl⟩
    unfold HostsEntry.str_to_hostentry
    rw [h2]
    simp [h3, init_comment_ok (ne_empty_of_data_cons htd), Except.map]

/-- Claim C2 witness: the two parsing paths at concrete comment lines. -/
theorem c2_witness :
    populate_entries ["# c\n"] =
      (populate_entries []).map (fun tl => ⟨"comment", none, some "# c\n", none⟩ :: tl)
    ∧ Hosts.write (⟨"comment", none, some "# c\n", none⟩ :: []) =
        "# c\n" ++ Hosts.write []
    ∧ HostsEntry.str_to_hostentry "# hi" =
        .ok (some ⟨"comment", none, some "#", none⟩) :=
  c2_comment_verbatim_on_load_only "# c\n" "# hi" "#" [' ', 'c', '\n'] [] [] ["hi"]
    rfl rfl rfl

/-- Claim C6: adding an ipv4/ipv6 entry whose address equals the address of
an existing ipv4/ipv6 entry with force false is rejected (address_matches
is at least 1), the collection is unchanged and false is returned, whatever
the name sets are. -/
theorem c6_add_rejects_existing_address (h : Hosts) (entry e : HostsEntry)
    (a : String)
    (h1 : entry.entry_type = "ipv4" ∨ entry.entry_type = "ipv6")
    (h2 : e ∈ h.entries)
    (h3 : e.entry_type = "ipv4" ∨ e.entry_type = "ipv6")
    (h4 : e.address = some a) (h5 : a ≠ "") (h6 : entry.address = some a) :
    h.add entry false = (h, .ok false) := by
  have hcomm : (entry.entry_type == "comment") = false := by
    rcases h1 with h1 | h1 <;> simp [h1]
  have hip : (entry.entry_type == "ipv4" || entry.entry_type == "ipv6") = true := by
    rcases h1 with h1 | h1 <;> simp [h1]
  have haddr : addrCond entry e = true := by
    unfold addrCond
    rw [h4, h6]
    simp [hip, truthyStr, h5]
  have hpos : 0 < h.entries.countP (addrCond entry) :=
    List.countP_pos_iff.mpr ⟨e, h2, haddr⟩
  have haddrm : (h.count entry).address_matches ≠ 0 := by
    rw [count_spec]
    simpa using Nat.pos_iff_ne_zero.mp hpos
  unfold Hosts.add
  simp [hcomm, hip, haddrm]

/-- Claim C6 witness: a concrete rejected add on a duplicate address with
disjoint names. -/
theorem c6_witness :
    Hosts.add ⟨[⟨"ipv4", some "1.2.3.4", none, some ["old"]⟩]⟩
        ⟨"ipv4", some "1.2.3.4", none, some ["new"]⟩ false =
      (⟨[⟨"ipv4", some "1.2.3.4", none, some ["old"]⟩]⟩, Except.ok false) :=
  c6_add_rejects_existing_address _ _ _ "1.2.3.4" (Or.inl rfl)
    (List.mem_cons_self _ _) (Or.inl rfl) rfl (by decide) rfl

/-- Claim C7: adding an ipv4/ipv6 entry with force true on a collection
whose entries with that address all carry names (as loaded entries do)
first removes every conflicting entry and appends the new one at the end,
leaving exactly one entry with that address, and returns true. -/
theorem c7_add_force_single_address_entry (h : Hosts) (entry : HostsEntry)
    (a : String)
    (h1 : entry.entry_type = "ipv4" ∨ entry.entry_type = "ipv6")
    (h2 : entry.address = some a)
    (h3 : truthyNames entry.names = true)
    (h4 : truthyStr entry.comment = false)
    (h5 : ∀ e ∈ h.entries, e.address = some a → truthyNames e.names = true)
    (h6 : ∃ e ∈ h.entries, e.address = some a) :
    ((h.add entry true).1.entries.countP fun e => e.address == some a) = 1
    ∧ (h.add entry true).2 = .ok true := by
  have hcomm : (entry.entry_type == "comment") = false := by
    rcases h1 with h1 | h1 <;> simp [h1]
  have hip : (entry.entry_type == "ipv4" || entry.entry_type == "ipv6") = true := by
    rcases h1 with h1 | h1 <;> simp [h1]
  have hadd : h.add entry true =
      ({ entries := (h.entries.filter fun e => !removeMatch entry e) ++ [entry] },
       .ok true) := by
    unfold Hosts.add
    rw [remove_nc h entry h4]
    simp [hcomm, hip]
  rw [hadd]
  refine ⟨?_, rfl⟩
  simp only [List.countP_append]
  have hzero : ((h.entries.filter fun e => !removeMatch entry e).countP
      fun e => e.address == some a) = 0 := by
    rw [List.countP_eq_zero]
    intro x hx
    simp only [List.mem_filter] at hx
    obtain ⟨hxmem, hxnm⟩ := hx
    intro hxa'
    have hxa : x.address = some a := by
      rwa [beq_iff_eq] at hxa'
    have hxn := h5 x hxmem hxa
    have hrm : removeMatch entry x = true := by
      unfold removeMatch
      rw [hxa, h2]
      simp [hxn, h3]
    rw [hrm] at hxnm
    simp at hxnm
  rw [hzero]
  simp [List.countP_cons, h2]

/-- Claim C7 witness: a concrete forced add replacing the one conflicting
entry. -/
theorem c7_witness :
    ((Hosts.add ⟨[⟨"ipv4", some "1.2.3.4", none, some ["old"]⟩]⟩
        ⟨"ipv4", some "1.2.3.4", none, some ["new"]⟩ true).1.entries.countP
      fun e => e.address == some "1.2.3.4") = 1
    ∧ (Hosts.add ⟨[⟨"ipv4", some "1.2.3.4", none, some ["old"]⟩]⟩
        ⟨"ipv4", some "1.2.3.4", none, some ["new"]⟩ true).2 = Except.ok true :=
  c7_add_force_single_address_entry _ _ "1.2.3.4" (Or.inl rfl) rfl rfl rfl
    (by decide) ⟨_, List.mem_cons_self _ _, rfl⟩

/-- Claim C8: constructing an ipv4 or ipv6 entry fails with the generic
missing-fields error when address or names are missing or empty, fails with
the family-specific invalid-address error when the address does not
validate, succeeds (storing exactly the given fields) otherwise, and the
three failure kinds are pairwise distinct. -/
theorem c8_init_validation (address comment : Option String)
    (names : Option (List String)) :
    (HostsEntry.init (some "ipv4") address comment names =
      if truthyStr address && truthyNames names then
        if is_ipv4 (address.getD "") then
          .ok ⟨"ipv4", address, comment, names⟩
        else .error .invalidIPv4Address
      else .error (.genericError "Address and Name(s) must be specified."))
    ∧ (HostsEntry.init (some "ipv6") address comment names =
      if truthyStr address && truthyNames names then
        if is_ipv6 (address.getD "") then
          .ok ⟨"ipv6", address, comment, names⟩
        else .error .invalidIPv6Address
      else .error (.genericError "Address and Name(s) must be specified."))
    ∧ ((HostsError.genericError "Address and Name(s) must be specified." ==
        HostsError.invalidIPv4Address) = false)
    ∧ ((HostsError.genericError "Address and Name(s) must be specified." ==
        HostsError.invalidIPv6Address) = false)
    ∧ ((HostsError.invalidIPv4Address == HostsError.invalidIPv6Address) = false) := by
  refine ⟨?_, ?_, by decide, by decide, by decide⟩
  · unfold HostsEntry.init
    by_cases hm : (truthyStr address && truthyNames names) = true <;>
      by_cases hv : is_ipv4 (address.getD "") = true <;>
        simp [hm, hv] <;> rfl
  · unfold HostsEntry.init
    by_cases hm : (truthyStr address && truthyNames names) = true <;>
      by_cases hv : is_ipv6 (address.getD "") = true <;>
        simp [hm, hv] <;> rfl

/-- Claim C9: adding a comment entry whose text equals an existing comment
entry's text with force false returns false and leaves the entry list
unchanged. -/
theorem c9_duplicate_comment_add_rejected (h : Hosts) (entry e : HostsEntry)
    (c : String)
    (h1 : entry.entry_type = "comment")
    (h2 : e ∈ h.entries) (h3 : e.comment = some c) (h4 : entry.comment = some c) :
    h.add entry false = (h, .ok false) := by
  have hcc : commentCond entry e = true := by
    unfold commentCond
    rw [h3, h4]
    simp [h1]
  have hpos : 0 < h.entries.countP (commentCond entry) :=
    List.countP_pos_iff.mpr ⟨e, h2, hcc⟩
  have hcm : (h.count entry).comment_matches ≠ 0 := by
    rw [count_spec]
    simpa using Nat.pos_iff_ne_zero.mp hpos
  unfold Hosts.add
  simp [h1, hcm]

/-- Claim C9 witness: a concrete duplicate comment rejected. -/
theorem c9_witness :
    Hosts.add ⟨[⟨"comment", none, some "#note", none⟩]⟩
        ⟨"comment", none, some "#note", none⟩ false =
      (⟨[⟨"comment", none, some "#note", none⟩]⟩, Except.ok false) :=
  c9_duplicate_comment_add_rejected _ _ _ "#note" rfl (List.mem_cons_self _ _)
    rfl rfl

/-- Claim C10: on a collection whose blank entries carry neither names nor
comment text (as constructed by the load path), remove never removes a
blank entry: the blank entries, in their relative order, are the same
before and after any remove call. -/
theorem c10_remove_preserves_blanks (h : Hosts) (entry : HostsEntry)
    (hw : ∀ e ∈ h.entries, e.entry_type = "blank" →
      e.names = none ∧ e.comment = none) :
    ((h.remove entry).1.entries.filter fun e => e.entry_type == "blank")
      = h.entries.filter fun e => e.entry_type == "blank" := by
  have hP : ∀ t ∈ (h.entries.enum.foldl (removeStep entry) ([], 0)).1,
      ∀ ie ∈ h.entries.enum, ie.1 = t →
        (ie.2.entry_type == "blank") = false := by
    intro t ht ie hie hfst
    rcases removeStep_foldl_fst_mem entry h.entries.enum ([], 0) t ht with
      ht0 | ⟨ie2, hie2, hfst2, hmatch⟩
    · simp at ht0
    · have hsnd : ie2.2 = ie.2 := by
        have hm1 : (t, ie2.2) ∈ h.entries.enum := by
          rw [show (t, ie2.2) = ie2 from Prod.ext hfst2.symm rfl]
          exact hie2
        have hm2 : (t, ie.2) ∈ h.entries.enum := by
          rw [show (t, ie.2) = ie from Prod.ext hfst.symm rfl]
          exact hie
        exact enum_snd_unique hm1 hm2
      rw [hsnd] at hmatch
      by_cases hb : ie.2.entry_type = "blank"
      · obtain ⟨hn, hc⟩ := hw ie.2 (mem_entries_of_mem_enum hie) hb
        exfalso
        cases hec : entry.comment with
        | none =>
          simp [removeMatch, commentMatch, hn, hc, hec, truthyNames, truthyStr]
            at hmatch
        | some ec =>
          simp [removeMatch, commentMatch, hn, hc, hec, truthyNames, truthyStr]
            at hmatch
      · simp [hb]
  have hfst : (h.remove entry).1.entries =
      (removeAll (h.entries.enum.foldl (removeStep entry) ([], 0)).1
        h.entries.enum).1.map Prod.snd := rfl
  have hmain : ((removeAll (h.entries.enum.foldl (removeStep entry) ([], 0)).1
      h.entries.enum).1.filter fun ie => ie.2.entry_type == "blank") =
      h.entries.enum.filter fun ie => ie.2.entry_type == "blank" :=
    filter_removeAll _ _ hP
  have e1 : ((h.remove entry).1.entries.filter fun e => e.entry_type == "blank")
      = ((removeAll (h.entries.enum.foldl (removeStep entry) ([], 0)).1
          h.entries.enum).1.filter fun ie => ie.2.entry_type == "blank").map
            Prod.snd := by
    rw [hfst]
    exact (map_snd_filter (fun e => e.entry_type == "blank") _).symm
  rw [e1, hmain]
  exact (map_snd_filter (fun e => e.entry_type == "blank") _).trans
    (by rw [List.enum_map_snd])

/-- Claim C10 witness: a concrete remove that deletes an ipv4 entry and
keeps the blank line. -/
theorem c10_witness :
    ((Hosts.remove
        ⟨[⟨"blank", none, none, none⟩, ⟨"ipv4", some "1.2.3.4", none, some ["x"]⟩]⟩
        ⟨"ipv4", some "1.2.3.4", none, some ["x"]⟩).1.entries.filter
      fun e => e.entry_type == "blank")
      = ([⟨"blank", none, none, none⟩,
          ⟨"ipv4", some "1.2.3.4", none, some ["x"]⟩] : List HostsEntry).filter
          fun e => e.entry_type == "blank" :=
  c10_remove_preserves_blanks _ _ (by decide)
